import Mathlib

/-!
Shallow embedding of the command authorization gateway in src/nope.py.

The Python module classifies a shell command string against three policy
tiers (absolute deny list, confirmation list, conditional secondary
filters) and either blocks it, asks for confirmation, or executes it.
Two surfaces exist: the interactive one built on execute_command (which
tokenizes with shlex.split and may prompt on stdin via confirm()), and
the FastAPI endpoint api_execute_command (which pre-checks using plain
str.split and must receive the decision in the request).

Ambient process state (sys.prefix attributes, the output of the ls
subprocess, and the executor) is reified in a Ctx record.  Python
exceptions escaping a function are modelled with Except String.  The
interactive confirm() prompt is modelled by an oracle ans : Nat -> Bool
giving the answer to the n-th prompt of a submission; a Trace records
which prompt messages were solicited and which argument vectors were
handed to subprocess.run.
-/

/-- The single-quote character, U+0027 (written via its code so that the
source contains no literal apostrophe). -/
def squoteC : Char := Char.ofNat 39

/-- The double-quote character, U+0022. -/
def dquoteC : Char := Char.ofNat 34

/-- The backslash character, U+005C. -/
def bslashC : Char := Char.ofNat 92

/-- One-character string holding a single quote. -/
def squoteS : String := String.singleton squoteC

/-- Wrap a string in single quotes, as the Python f-strings do with
f-string interpolations of the form quote-braces-quote. -/
def q (s : String) : String := squoteS ++ s ++ squoteS

/-- U+274C, the cross-mark prefixed to error messages in nope.py. -/
def crossEmoji : String := String.singleton (Char.ofNat 0x274C)

/-- U+2705, the check-mark prefixed to success messages in nope.py. -/
def checkEmoji : String := String.singleton (Char.ofNat 0x2705)

/-- U+23F8 U+FE0F, the pause sign prefixed to cancellation messages in
nope.py. -/
def pauseEmoji : String := String.mk [Char.ofNat 0x23F8, Char.ofNat 0xFE0F]

/-- U+26A0 U+FE0F, the warning sign prefixed to confirmation prompts in
nope.py. -/
def warnEmoji : String := String.mk [Char.ofNat 0x26A0, Char.ofNat 0xFE0F]

/-- Boolean test that pat is a leading segment of s (both as char lists);
used to model the str.startswith calls in nope.py. -/
def leadsWith : List Char → List Char → Bool
  | [], _ => true
  | _ :: _, [] => false
  | p :: ps, c :: cs => p == c && leadsWith ps cs

/-- Model of the Python str.startswith method: s.startswith(pat). -/
def strStartsWith (s pat : String) : Bool := leadsWith pat.data s.data

/-- Boolean test that pat occurs as a contiguous run inside s (as char
lists). -/
def hasSublist : List Char → List Char → Bool
  | [], pat => pat.isEmpty
  | c :: rest, pat => leadsWith pat (c :: rest) || hasSublist rest pat

/-- Whether pat occurs as a substring of s. -/
def containsSubstr (s pat : String) : Bool := hasSublist s.data pat.data

/-- nope_commands from nope.py: the strictly prohibited (absolute deny)
base command names. -/
def nope_commands : List String :=
  ["rm", "chmod", "chown", "chgrp", "mkfs", "mount", "umount", "dd",
   "shutdown", "reboot", "poweroff", "init", "systemctl", "journalctl",
   "user", "passwd", "sudo", "su",
   "kill", "dmesg", "lsmod", "modprobe", "insmod", "rmmod",
   "iptables", "firewalld", "ufw", "nc",
   "crontab", "at", "swapon", "swapoff",
   "lsusb", "lspci", "lsblk",
   "history"]

/-- confirm_commands from nope.py: the confirmation-required base command
names (note the compound entry "ln -s" kept verbatim from the source). -/
def confirm_commands : List String :=
  ["curl", "wget",
   "pip", "pip3", "npm", "yarn", "apt-get", "apt", "yum", "dnf", "pacman", "brew",
   "sysctl", "ulimit", "update-alternatives", "locale-gen",
   "nvm", "rbenv", "pyenv", "sdk", "snap",
   "ssh", "scp", "ftp", "sftp", "rsync",
   "docker", "docker-compose", "podman", "kubectl", "minikube",
   "service", "launchctl",
   "fdisk", "mkfs.ext4", "mkfs.ntfs", "resize2fs", "e2fsck", "fsck",
   "qemu", "kvm",
   "loginctl", "useradd", "usermod", "groupadd", "groupmod",
   "netstat", "ss", "tcpdump", "nmap",
   "mv", "cp", "ln -s",
   "export", "source",
   "top", "ps", "df", "du",
   "alias", "reset", "stty"]

/-- Result of the external subprocess.run executor: normal completion,
subprocess.CalledProcessError, FileNotFoundError, or any other
exception. -/
inductive ExecOutcome
  | execOk (stdout : String)
  | calledProcessError (stderr : String)
  | fileNotFound
  | otherError (msg : String)

/-- Ambient process context consulted by the predicate library and the
executor.  hasRealPfx models hasattr(sys, real_prefix); hasBasePfx models
hasattr(sys, base_prefix); basePfxNe models sys.base_prefix differing
from sys.prefix; lsOutput is the word list produced by the ls subprocess
in the current directory (none when check_output raises); execRun is the
external executor applied to the argument vector. -/
structure Ctx where
  hasRealPfx : Bool
  hasBasePfx : Bool
  basePfxNe : Bool
  lsOutput : Option (List String)
  execRun : List String → ExecOutcome

/-- is_within_virtualenv from nope.py: hasattr(sys, real_prefix) or
(hasattr(sys, base_prefix) and sys.base_prefix differs from sys.prefix).
Total: never raises. -/
def is_within_virtualenv (ctx : Ctx) : Bool :=
  ctx.hasRealPfx || (ctx.hasBasePfx && ctx.basePfxNe)

/-- The project marker file names checked by is_within_project_directory. -/
def required_files : List String :=
  ["requirements.txt", "package.json", "Pipfile", "pyproject.toml"]

/-- is_within_project_directory from nope.py.  It shells out to ls via
subprocess.check_output with no exception handling, so when the listing
fails (e.g. an unreadable working directory) the CalledProcessError
escapes the predicate; that fallible call is the lsOutput field of the
context. -/
def is_within_project_directory (ctx : Ctx) : Except String Bool :=
  match ctx.lsOutput with
  | none => Except.error "CalledProcessError"
  | some cwd_files => Except.ok (required_files.any (fun file => cwd_files.contains file))

/-- The fixed trusted host list in is_trusted_host. -/
def trusted_hosts : List String := ["github.com", "gitlab.com", "bitbucket.org"]

/-- is_trusted_host from nope.py: membership of the host in the fixed
trusted list. -/
def is_trusted_host (host : String) : Bool := trusted_hosts.contains host

/-- The fixed allowed remote list in is_allowed_remote. -/
def allowed_remotes : List String := ["origin", "upstream"]

/-- is_allowed_remote from nope.py: membership of the remote in the fixed
allowed list. -/
def is_allowed_remote (remote : String) : Bool := allowed_remotes.contains remote

/-- One entry of secondary_filters: base command, optional required
subcommand, condition over the argument tail (in the ambient context,
and fallible because it may call is_within_project_directory), and the
human-readable rationale message. -/
structure SecondaryFilter where
  command : String
  subcommand : Option String
  condition : List String → Ctx → Except String Bool
  message : String

/-- The pip filter: condition is any argument starting with
--trusted-host, or being inside a virtualenv. -/
def pipFilter : SecondaryFilter :=
  ⟨"pip", some "install",
   fun args ctx =>
     Except.ok (args.any (fun arg => strStartsWith arg "--trusted-host") || is_within_virtualenv ctx),
   "Ensure that pip installations are from trusted sources or within a virtual environment."⟩

/-- The npm filter: condition is no -g flag and being inside a project
directory (the Python and-operator short-circuits, so the fallible
directory check only runs when -g is absent). -/
def npmFilter : SecondaryFilter :=
  ⟨"npm", some "install",
   fun args ctx =>
     if args.contains "-g" then Except.ok false else is_within_project_directory ctx,
   "NPM installations are allowed only within the project directory and without global flags."⟩

/-- The docker filter: condition is run or build occurring among the
arguments; no required subcommand. -/
def dockerFilter : SecondaryFilter :=
  ⟨"docker", none,
   fun args _ => Except.ok (args.contains "run" || args.contains "build"),
   "Docker operations are restricted to running or building images without modifying the host system."⟩

/-- The ssh filter: condition is the last argument being a trusted host,
false on an empty argument list (the Python conditional expression
guards the args[-1] access). -/
def sshFilter : SecondaryFilter :=
  ⟨"ssh", none,
   fun args _ =>
     Except.ok (match args.getLast? with
       | some host => is_trusted_host host
       | none => false),
   "SSH connections are allowed only to predefined trusted hosts."⟩

/-- The git filter: condition is the last argument being an allowed
remote, false on an empty argument list. -/
def gitFilter : SecondaryFilter :=
  ⟨"git", some "push",
   fun args _ =>
     Except.ok (match args.getLast? with
       | some remote => is_allowed_remote remote
       | none => false),
   "Git push operations are restricted to allowed remote repositories."⟩

/-- secondary_filters from nope.py, in source order. -/
def secondary_filters : List SecondaryFilter :=
  [pipFilter, npmFilter, dockerFilter, sshFilter, gitFilter]

/-- What execute_command returns, without its message formatting: the
seven distinct return shapes of the function. -/
inductive Outcome
  | noCommand
  | blocked (base : String)
  | cancelled
  | execSuccess (stdout : String)
  | execFailed (stderr : String)
  | notFound (base : String)
  | unexpected (msg : String)
deriving DecidableEq

/-- The exact result string execute_command builds for each outcome. -/
def messageOf : Outcome → String
  | Outcome.noCommand => crossEmoji ++ " No command provided."
  | Outcome.blocked base =>
      crossEmoji ++ (" The command " ++ (q base ++ " is restricted and cannot be executed."))
  | Outcome.cancelled => pauseEmoji ++ " Command execution cancelled by the user."
  | Outcome.execSuccess stdout =>
      checkEmoji ++ (" Command executed successfully.\nOutput:\n" ++ stdout)
  | Outcome.execFailed stderr =>
      crossEmoji ++ (" Command execution failed.\nError:\n" ++ stderr)
  | Outcome.notFound base => crossEmoji ++ (" Command " ++ (q base ++ " not found."))
  | Outcome.unexpected msg => crossEmoji ++ (" An unexpected error occurred: " ++ msg)

/-- The confirm-tier prompt text built at line 193 of nope.py. -/
def confirmTierPrompt (command : String) : String :=
  warnEmoji ++ (" The command " ++ (q command ++ " may pose risks. Do you want to proceed?"))

/-- The secondary-filter prompt text built at line 210 of nope.py. -/
def filterPrompt (message command : String) : String :=
  warnEmoji ++ (" " ++ (message ++ (" Do you want to proceed with the command " ++ (q command ++ "?"))))

/-- Observable side effects of one submission: the prompt messages for
which confirm() was invoked on stdin, in order, and the argument vectors
passed to subprocess.run. -/
structure Trace where
  prompts : List String
  spawned : List (List String)
deriving DecidableEq

/-- Result of the secondary-filter loop inside execute_command: either an
early cancelled return, or falling through with the final user_confirm
value; both carry the prompt messages solicited so far. -/
inductive LoopRes
  | cancel (prompts : List String)
  | cont (uconf : Option Bool) (prompts : List String)
deriving DecidableEq

/-- The skip test at line 205 of nope.py: a filter iteration is skipped
when the filter has a (truthy) subcommand, the argument list is
non-empty, and its first element differs from the subcommand. -/
def filterSkip (f : SecondaryFilter) (args : List String) : Bool :=
  match f.subcommand, args with
  | some sub, a0 :: _ => !(sub == "") && !(a0 == sub)
  | _, _ => false

/-- The filter loop of execute_command (lines 202-216): for each filter
whose command equals the base command and which is not skipped by the
subcommand test, evaluate the condition; when it holds, either prompt
(user_confirm still None), or cancel (user_confirm False), or continue
(user_confirm True).  ans gives the answer to the n-th prompt. -/
def filterLoop (command base : String) (args : List String) (ctx : Ctx) (ans : Nat → Bool) :
    List SecondaryFilter → Option Bool → List String → Except String LoopRes
  | [], uconf, prompts => Except.ok (LoopRes.cont uconf prompts)
  | f :: rest, uconf, prompts =>
    if f.command = base then
      if filterSkip f args then filterLoop command base args ctx ans rest uconf prompts
      else
        match f.condition args ctx with
        | Except.error e => Except.error e
        | Except.ok false => filterLoop command base args ctx ans rest uconf prompts
        | Except.ok true =>
          match uconf with
          | none =>
            if ans prompts.length then
              filterLoop command base args ctx ans rest (some true)
                (prompts ++ [filterPrompt f.message command])
            else Except.ok (LoopRes.cancel (prompts ++ [filterPrompt f.message command]))
          | some b =>
            if b then filterLoop command base args ctx ans rest (some b) prompts
            else Except.ok (LoopRes.cancel prompts)
    else filterLoop command base args ctx ans rest uconf prompts

/-- The try-block of execute_command (lines 219-228): run the executor on
the argument vector and translate its result or exception into the
corresponding outcome. -/
def execOutcome (ctx : Ctx) (base : String) (parts : List String) : Outcome :=
  match ctx.execRun parts with
  | ExecOutcome.execOk stdout => Outcome.execSuccess stdout
  | ExecOutcome.calledProcessError stderr => Outcome.execFailed stderr
  | ExecOutcome.fileNotFound => Outcome.notFound base
  | ExecOutcome.otherError msg => Outcome.unexpected msg

/-- The part of execute_command after the confirm-tier step: run the
secondary-filter loop and, unless it cancels or raises, spawn the
process. -/
def afterConfirm (command base : String) (args : List String) (ctx : Ctx) (ans : Nat → Bool)
    (uconf : Option Bool) (prompts : List String) : Except String (Outcome × Trace) :=
  match filterLoop command base args ctx ans secondary_filters uconf prompts with
  | Except.error e => Except.error e
  | Except.ok (LoopRes.cancel ps) => Except.ok (Outcome.cancelled, ⟨ps, []⟩)
  | Except.ok (LoopRes.cont _ ps) =>
      Except.ok (execOutcome ctx base (base :: args), ⟨ps, [base :: args]⟩)

/-- The body of execute_command from the token list onwards (lines
179-228 of nope.py): empty-token rejection, deny check, confirm-tier
gate with optional interactive prompt, filter loop, execution. -/
def executeCommandCore (command : String) (parts : List String) (user_confirm : Option Bool)
    (ctx : Ctx) (ans : Nat → Bool) : Except String (Outcome × Trace) :=
  match parts with
  | [] => Except.ok (Outcome.noCommand, ⟨[], []⟩)
  | base :: args =>
    if base ∈ nope_commands then Except.ok (Outcome.blocked base, ⟨[], []⟩)
    else
      if base ∈ confirm_commands then
        match user_confirm with
        | none =>
          if ans 0 then afterConfirm command base args ctx ans (some true) [confirmTierPrompt command]
          else Except.ok (Outcome.cancelled, ⟨[confirmTierPrompt command], []⟩)
        | some b =>
          if b then afterConfirm command base args ctx ans (some b) []
          else Except.ok (Outcome.cancelled, ⟨[], []⟩)
      else afterConfirm command base args ctx ans user_confirm []

/-- Whitespace characters recognized by shlex (space, tab, carriage
return, newline). -/
def isShlexSpace (c : Char) : Bool :=
  c == Char.ofNat 32 || c == Char.ofNat 9 || c == Char.ofNat 13 || c == Char.ofNat 10

/-- Lexer modes of the shlex.split posix state machine: plain reading,
inside single quotes, inside double quotes, after an escape outside
quotes, after an escape inside double quotes. -/
inductive SMode
  | normal
  | single
  | double
  | escNormal
  | escDouble

/-- The shlex.split state machine (posix mode, whitespace_split): cur is
the token in progress, in reverse character order (none when no token
has started), out the emitted tokens.  Unbalanced quotes and a trailing
escape raise ValueError, modelled as Except.error with the exception
text. -/
def shlexRun : List Char → SMode → Option (List Char) → List String → Except String (List String)
  | [], SMode.normal, cur, out =>
      (match cur with
       | none => Except.ok out
       | some tok => Except.ok (out ++ [String.mk tok.reverse]))
  | [], SMode.escNormal, _, _ => Except.error "No escaped character"
  | [], SMode.escDouble, _, _ => Except.error "No escaped character"
  | [], SMode.single, _, _ => Except.error "No closing quotation"
  | [], SMode.double, _, _ => Except.error "No closing quotation"
  | c :: rest, SMode.normal, cur, out =>
      if isShlexSpace c then
        match cur with
        | none => shlexRun rest SMode.normal none out
        | some tok => shlexRun rest SMode.normal none (out ++ [String.mk tok.reverse])
      else if c == squoteC then shlexRun rest SMode.single (some (cur.getD [])) out
      else if c == dquoteC then shlexRun rest SMode.double (some (cur.getD [])) out
      else if c == bslashC then shlexRun rest SMode.escNormal (some (cur.getD [])) out
      else shlexRun rest SMode.normal (some (c :: cur.getD [])) out
  | c :: rest, SMode.single, cur, out =>
      if c == squoteC then shlexRun rest SMode.normal cur out
      else shlexRun rest SMode.single (some (c :: cur.getD [])) out
  | c :: rest, SMode.double, cur, out =>
      if c == dquoteC then shlexRun rest SMode.normal cur out
      else if c == bslashC then shlexRun rest SMode.escDouble cur out
      else shlexRun rest SMode.double (some (c :: cur.getD [])) out
  | c :: rest, SMode.escNormal, cur, out =>
      shlexRun rest SMode.normal (some (c :: cur.getD [])) out
  | c :: rest, SMode.escDouble, cur, out =>
      if c == dquoteC || c == bslashC then shlexRun rest SMode.double (some (c :: cur.getD [])) out
      else shlexRun rest SMode.double (some (c :: bslashC :: cur.getD [])) out

/-- shlex.split(command) as called at line 178 of nope.py. -/
def shlexSplit (s : String) : Except String (List String) :=
  shlexRun s.data SMode.normal none []

/-- execute_command from nope.py, including the shlex tokenization (whose
ValueError on unbalanced quoting escapes the function uncaught). -/
def execute_command (command : String) (user_confirm : Option Bool) (ctx : Ctx)
    (ans : Nat → Bool) : Except String (Outcome × Trace) :=
  match shlexSplit command with
  | Except.error e => Except.error e
  | Except.ok parts => executeCommandCore command parts user_confirm ctx ans

/-- Whitespace characters recognized by the Python str.split() used by
the API pre-checks (ASCII subset: space, tab, newline, carriage return,
form feed, vertical tab). -/
def isPySpace (c : Char) : Bool :=
  c == Char.ofNat 32 || c == Char.ofNat 9 || c == Char.ofNat 10 ||
  c == Char.ofNat 13 || c == Char.ofNat 12 || c == Char.ofNat 11

/-- Accumulating worker for pySplit: cur is the token in progress in
reverse character order. -/
def pySplitAux : List Char → List Char → List String
  | [], [] => []
  | [], c :: cs => [String.mk (c :: cs).reverse]
  | c :: rest, cur =>
    if isPySpace c then
      match cur with
      | [] => pySplitAux rest []
      | d :: ds => String.mk (d :: ds).reverse :: pySplitAux rest []
    else pySplitAux rest (c :: cur)

/-- Python str.split() with no arguments, as used by
api_execute_command: split on runs of whitespace, no empty tokens. -/
def pySplit (s : String) : List String := pySplitAux s.data []

/-- What the API handler produces when it does not itself raise an
unhandled exception: a CommandResponse with status and message, or an
HTTPException with status code and detail. -/
inductive ApiResult
  | response (status message : String)
  | httpErr (code : Nat) (detail : String)
deriving DecidableEq

/-- The cancellation message returned on both surfaces. -/
def cancelledMsg : String := pauseEmoji ++ " Command execution cancelled by the user."

/-- The detail of the HTTPException raised at line 264 of nope.py. -/
def confirmRequiredDetail : String :=
  "Confirmation required for this command. Please set " ++ (q "confirm" ++ " to true or false.")

/-- The secondary-filter pre-check loop of api_execute_command (lines
268-275): for each applicable filter (NO subcommand test here, unlike
execute_command), evaluate the condition on the whitespace-split
argument tail; when it holds, demand confirmation (uconf absent) or
cancel (uconf false).  Except.ok none means the loop fell through. -/
def apiFilterLoop (args : List String) (ctx : Ctx) (uconf : Option Bool) :
    List SecondaryFilter → Except String (Option ApiResult)
  | [] => Except.ok none
  | f :: rest =>
    match f.condition args ctx with
    | Except.error e => Except.error e
    | Except.ok false => apiFilterLoop args ctx uconf rest
    | Except.ok true =>
      match uconf with
      | none => Except.ok (some (ApiResult.httpErr 400 ("Confirmation required: " ++ f.message)))
      | some false => Except.ok (some (ApiResult.response "cancelled" cancelledMsg))
      | some true => apiFilterLoop args ctx uconf rest

/-- The body of api_execute_command once command.split() produced a head
token b0 and tail rest: the deny check, the confirm-tier check (raising
HTTPException 400 when the decision is absent), the subcommand-less
filter pre-check, and the final delegation to execute_command whose
result string is classified by its leading emoji. -/
def apiAfterSplit (command : String) (b0 : String) (rest : List String) (uconf : Option Bool)
    (ctx : Ctx) (ans : Nat → Bool) : Except String (ApiResult × Trace) :=
  if b0 ∈ nope_commands then
      Except.ok (ApiResult.response "blocked"
        (crossEmoji ++ (" The command " ++ (q b0 ++ " is restricted and cannot be executed."))),
        ⟨[], []⟩)
    else
      match (if b0 ∈ confirm_commands then
               match uconf with
               | none => some (ApiResult.httpErr 400 confirmRequiredDetail)
               | some false => some (ApiResult.response "cancelled" cancelledMsg)
               | some true => none
             else none) with
      | some r => Except.ok (r, ⟨[], []⟩)
      | none =>
        match apiFilterLoop rest ctx uconf
                (secondary_filters.filter (fun f => f.command == b0)) with
        | Except.error e => Except.error e
        | Except.ok (some r) => Except.ok (r, ⟨[], []⟩)
        | Except.ok none =>
          match execute_command command uconf ctx ans with
          | Except.error e => Except.error e
          | Except.ok (o, tr) =>
            if strStartsWith (messageOf o) checkEmoji then
              Except.ok (ApiResult.response "success" (messageOf o), tr)
            else if strStartsWith (messageOf o) pauseEmoji then
              Except.ok (ApiResult.response "cancelled" (messageOf o), tr)
            else Except.ok (ApiResult.response "error" (messageOf o), tr)

/-- api_execute_command from nope.py (lines 244-284), assembled from the
IndexError-prone head access and apiAfterSplit. -/
def api_execute_command (command : String) (uconf : Option Bool) (ctx : Ctx)
    (ans : Nat → Bool) : Except String (ApiResult × Trace) :=
  match pySplit command with
  | [] => Except.error "IndexError: list index out of range"
  | b0 :: rest => apiAfterSplit command b0 rest uconf ctx ans

/-- The prompt list of a (possibly failed) submission; an escaped
exception carries no trace. -/
def promptsOf : Except String (Outcome × Trace) → List String
  | Except.error _ => []
  | Except.ok (_, tr) => tr.prompts

/-- A concrete quiescent context for witnesses: not a virtualenv, empty
directory listing, executor succeeding with empty stdout. -/
def ctx0 : Ctx := ⟨false, false, false, some [], fun _ => ExecOutcome.execOk ""⟩

/-- A context whose ls subprocess fails (e.g. unreadable working
directory). -/
def ctxLsFail : Ctx := ⟨false, false, false, none, fun _ => ExecOutcome.execOk ""⟩

/-- A prompt oracle answering yes to every solicitation. -/
def ansYes : Nat → Bool := fun _ => true

/-! ## Helper lemmas -/

theorem strData_append (s t : String) : (s ++ t).data = s.data ++ t.data := rfl

theorem leadsWith_cons (p c : Char) (ps cs : List Char) :
    leadsWith (p :: ps) (c :: cs) = ((p == c) && leadsWith ps cs) := rfl

theorem strStartsWith_cross_pause (s : String) :
    strStartsWith (crossEmoji ++ s) pauseEmoji = false := by
  obtain ⟨l⟩ := s
  show leadsWith pauseEmoji.data (Char.ofNat 0x274C :: l) = false
  rw [show pauseEmoji.data = [Char.ofNat 0x23F8, Char.ofNat 0xFE0F] from rfl]
  rw [leadsWith_cons]
  rw [show (Char.ofNat 0x23F8 == Char.ofNat 0x274C) = false from by decide]
  simp

theorem strStartsWith_check_pause (s : String) :
    strStartsWith (checkEmoji ++ s) pauseEmoji = false := by
  obtain ⟨l⟩ := s
  show leadsWith pauseEmoji.data (Char.ofNat 0x2705 :: l) = false
  rw [show pauseEmoji.data = [Char.ofNat 0x23F8, Char.ofNat 0xFE0F] from rfl]
  rw [leadsWith_cons]
  rw [show (Char.ofNat 0x23F8 == Char.ofNat 0x2705) = false from by decide]
  simp

theorem messageOf_pause_eq_cancelled (o : Outcome) :
    strStartsWith (messageOf o) pauseEmoji = true → o = Outcome.cancelled := by
  cases o <;> intro h <;> first
    | rfl
    | (exact absurd h (by rw [messageOf, strStartsWith_cross_pause] ; simp))
    | (exact absurd h (by rw [messageOf, strStartsWith_check_pause] ; simp))

theorem filterLoop_no_match (command base : String) (args : List String) (ctx : Ctx)
    (ans : Nat → Bool) :
    ∀ (fs : List SecondaryFilter) (uconf : Option Bool) (prompts : List String),
      (∀ f ∈ fs, f.command ≠ base) →
      filterLoop command base args ctx ans fs uconf prompts =
        Except.ok (LoopRes.cont uconf prompts) := by
  intro fs
  induction fs with
  | nil => intro uconf prompts _; rfl
  | cons f rest ih =>
    intro uconf prompts h
    have hf : ¬ f.command = base := h f (by simp)
    have hrest : ∀ g ∈ rest, g.command ≠ base := fun g hg => h g (List.mem_cons_of_mem f hg)
    simp only [filterLoop, if_neg hf]
    exact ih uconf prompts hrest

theorem filterLoop_some_spec (command base : String) (args : List String) (ctx : Ctx)
    (ans₁ ans₂ : Nat → Bool) (b : Bool) :
    ∀ (fs : List SecondaryFilter) (prompts : List String),
      filterLoop command base args ctx ans₁ fs (some b) prompts =
          filterLoop command base args ctx ans₂ fs (some b) prompts
        ∧ ((∃ e, filterLoop command base args ctx ans₁ fs (some b) prompts = Except.error e)
           ∨ filterLoop command base args ctx ans₁ fs (some b) prompts
               = Except.ok (LoopRes.cancel prompts)
           ∨ filterLoop command base args ctx ans₁ fs (some b) prompts
               = Except.ok (LoopRes.cont (some b) prompts)) := by
  intro fs
  induction fs with
  | nil => intro prompts; exact ⟨rfl, Or.inr (Or.inr rfl)⟩
  | cons f rest ih =>
    intro prompts
    by_cases hc : f.command = base
    · simp only [filterLoop, if_pos hc]
      cases hsk : filterSkip f args with
      | true => simpa using ih prompts
      | false =>
        simp only [Bool.false_eq_true, if_false]
        cases hcond : f.condition args ctx with
        | error e => exact ⟨rfl, Or.inl ⟨e, rfl⟩⟩
        | ok cb =>
          cases cb with
          | false => exact ih prompts
          | true =>
            cases b with
            | true => simpa using ih prompts
            | false => exact ⟨rfl, Or.inr (Or.inl rfl)⟩
    · simp only [filterLoop, if_neg hc]
      exact ih prompts

theorem filterLoop_none_spec (command base : String) (args : List String) (ctx : Ctx)
    (ans : Nat → Bool) :
    ∀ (fs : List SecondaryFilter) (prompts : List String) (r : LoopRes),
      filterLoop command base args ctx ans fs none prompts = Except.ok r →
      (∀ ps, r = LoopRes.cancel ps → ps.length ≤ prompts.length + 1)
        ∧ (∀ u ps, r = LoopRes.cont u ps → ps.length ≤ prompts.length + 1) := by
  intro fs
  induction fs with
  | nil =>
    intro prompts r h
    have hr : r = LoopRes.cont none prompts := by
      simpa [filterLoop] using h.symm
    subst hr
    constructor
    · intro ps hps; cases hps
    · intro u ps hps
      cases hps
      exact Nat.le_succ _
  | cons f rest ih =>
    intro prompts r h
    by_cases hc : f.command = base
    · simp only [filterLoop, if_pos hc] at h
      cases hsk : filterSkip f args with
      | true => rw [hsk] at h; simp only [if_true] at h; exact ih prompts r h
      | false =>
        rw [hsk] at h
        simp only [Bool.false_eq_true, if_false] at h
        cases hcond : f.condition args ctx with
        | error e => rw [hcond] at h; cases h
        | ok cb =>
          rw [hcond] at h
          cases cb with
          | false => exact ih prompts r h
          | true =>
            cases hprompt : ans prompts.length with
            | false =>
              rw [hprompt] at h
              simp only [Bool.false_eq_true, if_false] at h
              have hr : r = LoopRes.cancel (prompts ++ [filterPrompt f.message command]) := by
                cases h; rfl
              subst hr
              constructor
              · intro ps hps
                cases hps
                simp
              · intro u ps hps; cases hps
            | true =>
              rw [hprompt] at h
              simp only [if_true] at h
              rcases (filterLoop_some_spec command base args ctx ans ans true rest
                  (prompts ++ [filterPrompt f.message command])).2 with ⟨e, he⟩ | hcan | hcont
              · rw [he] at h; cases h
              · rw [hcan] at h
                have hr : r = LoopRes.cancel (prompts ++ [filterPrompt f.message command]) := by
                  cases h; rfl
                subst hr
                constructor
                · intro ps hps; cases hps; simp
                · intro u ps hps; cases hps
              · rw [hcont] at h
                have hr : r = LoopRes.cont (some true) (prompts ++ [filterPrompt f.message command]) := by
                  cases h; rfl
                subst hr
                constructor
                · intro ps hps; cases hps
                · intro u ps hps; cases hps; simp
    · simp only [filterLoop, if_neg hc] at h
      exact ih prompts r h

theorem execOutcome_shape (ctx : Ctx) (base : String) (parts : List String) :
    (∀ b, execOutcome ctx base parts ≠ Outcome.blocked b)
      ∧ execOutcome ctx base parts ≠ Outcome.cancelled := by
  cases hx : ctx.execRun parts <;> simp [execOutcome, hx]

theorem afterConfirm_spawn (command base : String) (args : List String) (ctx : Ctx)
    (ans : Nat → Bool) (uconf : Option Bool) (ps : List String) (o : Outcome) (tr : Trace) :
    afterConfirm command base args ctx ans uconf ps = Except.ok (o, tr) →
    ((∃ b, o = Outcome.blocked b) ∨ o = Outcome.cancelled) → tr.spawned = [] := by
  intro h hpre
  unfold afterConfirm at h
  cases hfl : filterLoop command base args ctx ans secondary_filters uconf ps with
  | error e => rw [hfl] at h; cases h
  | ok r =>
    rw [hfl] at h
    cases r with
    | cancel ps2 =>
      have : tr = ⟨ps2, []⟩ := by cases h; rfl
      rw [this]
    | cont u ps2 =>
      have ho : o = execOutcome ctx base (base :: args) := by cases h; rfl
      rcases hpre with ⟨b, hb⟩ | hcanc
      · exact absurd (ho.symm.trans hb) ((execOutcome_shape ctx base (base :: args)).1 b)
      · exact absurd (ho.symm.trans hcanc) (execOutcome_shape ctx base (base :: args)).2

theorem afterConfirm_ok_prompts_some (command base : String) (args : List String) (ctx : Ctx)
    (ans : Nat → Bool) (b : Bool) (ps : List String) (o : Outcome) (tr : Trace) :
    afterConfirm command base args ctx ans (some b) ps = Except.ok (o, tr) →
    tr.prompts = ps := by
  intro h
  unfold afterConfirm at h
  rcases (filterLoop_some_spec command base args ctx ans ans b secondary_filters ps).2 with
    ⟨e, he⟩ | hcan | hcont
  · rw [he] at h; cases h
  · rw [hcan] at h; cases h; rfl
  · rw [hcont] at h; cases h; rfl

theorem afterConfirm_ok_prompts_none (command base : String) (args : List String) (ctx : Ctx)
    (ans : Nat → Bool) (ps : List String) (o : Outcome) (tr : Trace) :
    afterConfirm command base args ctx ans none ps = Except.ok (o, tr) →
    tr.prompts.length ≤ ps.length + 1 := by
  intro h
  unfold afterConfirm at h
  cases hfl : filterLoop command base args ctx ans secondary_filters none ps with
  | error e => rw [hfl] at h; cases h
  | ok r =>
    rw [hfl] at h
    have hspec := filterLoop_none_spec command base args ctx ans secondary_filters ps r hfl
    cases r with
    | cancel ps2 =>
      have : tr = ⟨ps2, []⟩ := by cases h; rfl
      rw [this]
      exact hspec.1 ps2 rfl
    | cont u ps2 =>
      have : tr = ⟨ps2, [base :: args]⟩ := by cases h; rfl
      rw [this]
      exact hspec.2 u ps2 rfl

theorem afterConfirm_ans_indep (command base : String) (args : List String) (ctx : Ctx)
    (ans₁ ans₂ : Nat → Bool) (b : Bool) (ps : List String) :
    afterConfirm command base args ctx ans₁ (some b) ps =
      afterConfirm command base args ctx ans₂ (some b) ps := by
  unfold afterConfirm
  rw [(filterLoop_some_spec command base args ctx ans₁ ans₂ b secondary_filters ps).1]

theorem afterConfirm_some_promptsOf (command base : String) (args : List String) (ctx : Ctx)
    (ans : Nat → Bool) (b : Bool) :
    promptsOf (afterConfirm command base args ctx ans (some b) []) = [] := by
  cases h : afterConfirm command base args ctx ans (some b) [] with
  | error e => rfl
  | ok p =>
    obtain ⟨o, tr⟩ := p
    simpa [promptsOf] using afterConfirm_ok_prompts_some command base args ctx ans b [] o tr h

theorem core_spawn_empty (command : String) (parts : List String) (uconf : Option Bool)
    (ctx : Ctx) (ans : Nat → Bool) (o : Outcome) (tr : Trace) :
    executeCommandCore command parts uconf ctx ans = Except.ok (o, tr) →
    ((∃ b, o = Outcome.blocked b) ∨ o = Outcome.cancelled) → tr.spawned = [] := by
  intro h hpre
  cases parts with
  | nil =>
    have : tr = ⟨[], []⟩ := by
      simp only [executeCommandCore] at h
      cases h; rfl
    rw [this]
  | cons base args =>
    simp only [executeCommandCore] at h
    by_cases hnope : base ∈ nope_commands
    · rw [if_pos hnope] at h
      have : tr = ⟨[], []⟩ := by cases h; rfl
      rw [this]
    · rw [if_neg hnope] at h
      by_cases hconf : base ∈ confirm_commands
      · rw [if_pos hconf] at h
        cases uconf with
        | none =>
          cases hans : ans 0 with
          | true =>
            rw [hans] at h
            simp only [if_true] at h
            exact afterConfirm_spawn command base args ctx ans (some true)
              [confirmTierPrompt command] o tr h hpre
          | false =>
            rw [hans] at h
            simp only [Bool.false_eq_true, if_false] at h
            have : tr = ⟨[confirmTierPrompt command], []⟩ := by cases h; rfl
            rw [this]
        | some b =>
          cases b with
          | true =>
            simp only [if_true] at h
            exact afterConfirm_spawn command base args ctx ans (some true) [] o tr h hpre
          | false =>
            simp only [Bool.false_eq_true, if_false] at h
            have : tr = ⟨[], []⟩ := by cases h; rfl
            rw [this]
      · rw [if_neg hconf] at h
        exact afterConfirm_spawn command base args ctx ans uconf [] o tr h hpre

theorem core_some_spec (command : String) (parts : List String) (b : Bool) (ctx : Ctx)
    (ans₁ ans₂ : Nat → Bool) :
    executeCommandCore command parts (some b) ctx ans₁ =
        executeCommandCore command parts (some b) ctx ans₂
      ∧ promptsOf (executeCommandCore command parts (some b) ctx ans₁) = [] := by
  cases parts with
  | nil => exact ⟨rfl, rfl⟩
  | cons base args =>
    simp only [executeCommandCore]
    by_cases hnope : base ∈ nope_commands
    · simp only [if_pos hnope]
      exact ⟨trivial, rfl⟩
    · simp only [if_neg hnope]
      by_cases hconf : base ∈ confirm_commands
      · simp only [if_pos hconf]
        cases b with
        | false => exact ⟨rfl, rfl⟩
        | true =>
          exact ⟨afterConfirm_ans_indep command base args ctx ans₁ ans₂ true [],
            afterConfirm_some_promptsOf command base args ctx ans₁ true⟩
      · simp only [if_neg hconf]
        exact ⟨afterConfirm_ans_indep command base args ctx ans₁ ans₂ b [],
          afterConfirm_some_promptsOf command base args ctx ans₁ b⟩

theorem execute_command_spawn (command : String) (uconf : Option Bool) (ctx : Ctx)
    (ans : Nat → Bool) (o : Outcome) (tr : Trace) :
    execute_command command uconf ctx ans = Except.ok (o, tr) →
    ((∃ b, o = Outcome.blocked b) ∨ o = Outcome.cancelled) → tr.spawned = [] := by
  intro h hpre
  unfold execute_command at h
  cases hsp : shlexSplit command with
  | error e => rw [hsp] at h; cases h
  | ok parts =>
    rw [hsp] at h
    exact core_spawn_empty command parts uconf ctx ans o tr h hpre

/-! ## Claim theorems -/

/-- C1: a tokenized command whose first token is in the deny set is
blocked on both surfaces, for every argument tail, every supplied
confirmation decision, every prompt oracle and every ambient context
(hence regardless of predicate outcomes, confirm-set membership or
filter membership of the same base name). -/
theorem deny_precedence :
    (∀ (command base : String) (args : List String) (uconf : Option Bool) (ctx : Ctx)
        (ans : Nat → Bool), base ∈ nope_commands →
      executeCommandCore command (base :: args) uconf ctx ans =
        Except.ok (Outcome.blocked base, ⟨[], []⟩))
    ∧ (∀ (command b0 : String) (rest : List String) (uconf : Option Bool) (ctx : Ctx)
        (ans : Nat → Bool), pySplit command = b0 :: rest → b0 ∈ nope_commands →
      api_execute_command command uconf ctx ans =
        Except.ok (ApiResult.response "blocked"
          (crossEmoji ++ (" The command " ++ (q b0 ++ " is restricted and cannot be executed."))),
          ⟨[], []⟩)) := by
  constructor
  · intro command base args uconf ctx ans h
    simp only [executeCommandCore, if_pos h]
  · intro command b0 rest uconf ctx ans hsplit h
    simp only [api_execute_command]
    rw [hsplit]
    simp only [apiAfterSplit, if_pos h]

/-- Witness for C1 at the concrete submission rm -rf /x with an explicit
approval supplied: it is still blocked on both surfaces. -/
theorem deny_precedence_witness :
    executeCommandCore "rm -rf /x" ["rm", "-rf", "/x"] (some true) ctx0 ansYes =
        Except.ok (Outcome.blocked "rm", ⟨[], []⟩)
      ∧ api_execute_command "rm -rf /x" (some true) ctx0 ansYes =
        Except.ok (ApiResult.response "blocked"
          (crossEmoji ++ (" The command " ++ (q "rm" ++ " is restricted and cannot be executed."))),
          ⟨[], []⟩) :=
  ⟨deny_precedence.1 "rm -rf /x" "rm" ["-rf", "/x"] (some true) ctx0 ansYes (by decide),
   deny_precedence.2 "rm -rf /x" "rm" ["-rf", "/x"] (some true) ctx0 ansYes rfl (by decide)⟩

/-- C2: the executor is reached only on a final allow: whenever a
submission resolves to blocked or cancelled (interactive surface), or to
an HTTP error, a blocked response or a cancelled response (API surface),
the spawned list of its trace is empty, i.e. no subprocess was ever
started. -/
theorem no_spawn_without_allow :
    (∀ (command : String) (parts : List String) (uconf : Option Bool) (ctx : Ctx)
        (ans : Nat → Bool) (o : Outcome) (tr : Trace),
      executeCommandCore command parts uconf ctx ans = Except.ok (o, tr) →
      ((∃ b, o = Outcome.blocked b) ∨ o = Outcome.cancelled) → tr.spawned = [])
    ∧ (∀ (command : String) (uconf : Option Bool) (ctx : Ctx) (ans : Nat → Bool)
        (r : ApiResult) (tr : Trace),
      api_execute_command command uconf ctx ans = Except.ok (r, tr) →
      ((∃ c d, r = ApiResult.httpErr c d) ∨ (∃ m, r = ApiResult.response "blocked" m)
        ∨ (∃ m, r = ApiResult.response "cancelled" m)) → tr.spawned = []) := by
  constructor
  · exact core_spawn_empty
  · intro command uconf ctx ans r tr h0 hpre
    unfold api_execute_command at h0
    cases hsp : pySplit command with
    | nil => rw [hsp] at h0; cases h0
    | cons b0 rest =>
      rw [hsp] at h0
      have h : apiAfterSplit command b0 rest uconf ctx ans = Except.ok (r, tr) := h0
      unfold apiAfterSplit at h
      by_cases hnope : b0 ∈ nope_commands
      · rw [if_pos hnope] at h
        have : tr = ⟨[], []⟩ := by cases h; rfl
        rw [this]
      · rw [if_neg hnope] at h
        cases hg : (if b0 ∈ confirm_commands then
                      match uconf with
                      | none => some (ApiResult.httpErr 400 confirmRequiredDetail)
                      | some false => some (ApiResult.response "cancelled" cancelledMsg)
                      | some true => none
                    else none) with
        | some r2 =>
          rw [hg] at h
          have : tr = ⟨[], []⟩ := by cases h; rfl
          rw [this]
        | none =>
          rw [hg] at h
          cases hfl : apiFilterLoop rest ctx uconf
              (secondary_filters.filter (fun f => f.command == b0)) with
          | error e => rw [hfl] at h; cases h
          | ok ropt =>
            rw [hfl] at h
            cases ropt with
            | some r2 =>
              have : tr = ⟨[], []⟩ := by cases h; rfl
              rw [this]
            | none =>
              cases hex : execute_command command uconf ctx ans with
              | error e => rw [hex] at h; cases h
              | ok p =>
                obtain ⟨o, tr2⟩ := p
                rw [hex] at h
                have h3 : (if strStartsWith (messageOf o) checkEmoji = true then
                      Except.ok (ApiResult.response "success" (messageOf o), tr2)
                    else if strStartsWith (messageOf o) pauseEmoji = true then
                      Except.ok (ApiResult.response "cancelled" (messageOf o), tr2)
                    else Except.ok (ApiResult.response "error" (messageOf o), tr2)) =
                    Except.ok (r, tr) := h
                by_cases h1 : strStartsWith (messageOf o) checkEmoji = true
                · rw [if_pos h1] at h3
                  exfalso
                  have hr : r = ApiResult.response "success" (messageOf o) := by cases h3; rfl
                  rcases hpre with ⟨c, d, hcd⟩ | ⟨m, hm⟩ | ⟨m, hm⟩
                  · rw [hr] at hcd; cases hcd
                  · rw [hr] at hm
                    exact absurd (ApiResult.response.injEq .. ▸ hm) (by simp)
                  · rw [hr] at hm
                    exact absurd (ApiResult.response.injEq .. ▸ hm) (by simp)
                · rw [if_neg h1] at h3
                  by_cases h2 : strStartsWith (messageOf o) pauseEmoji = true
                  · rw [if_pos h2] at h3
                    have hr : r = ApiResult.response "cancelled" (messageOf o) ∧ tr = tr2 := by
                      cases h3; exact ⟨rfl, rfl⟩
                    rw [hr.2]
                    exact execute_command_spawn command uconf ctx ans o tr2 hex
                      (Or.inr (messageOf_pause_eq_cancelled o h2))
                  · rw [if_neg h2] at h3
                    exfalso
                    have hr : r = ApiResult.response "error" (messageOf o) := by cases h3; rfl
                    rcases hpre with ⟨c, d, hcd⟩ | ⟨m, hm⟩ | ⟨m, hm⟩
                    · rw [hr] at hcd; cases hcd
                    · rw [hr] at hm
                      exact absurd (ApiResult.response.injEq .. ▸ hm) (by simp)
                    · rw [hr] at hm
                      exact absurd (ApiResult.response.injEq .. ▸ hm) (by simp)

/-- Witness for C2: the blocked submission rm x and the cancelled
submission curl x both leave the spawned list empty. -/
theorem no_spawn_without_allow_witness :
    executeCommandCore "rm x" ["rm", "x"] none ctx0 ansYes =
        Except.ok (Outcome.blocked "rm", ⟨[], []⟩)
      ∧ (⟨[], []⟩ : Trace).spawned = [] :=
  ⟨rfl, no_spawn_without_allow.1 "rm x" ["rm", "x"] none ctx0 ansYes
    (Outcome.blocked "rm") ⟨[], []⟩ rfl (Or.inl ⟨"rm", rfl⟩)⟩

theorem pySplitAux_no_space :
    ∀ (l cur : List Char), (∀ c ∈ cur, isPySpace c = false) →
      ∀ tok ∈ pySplitAux l cur, ∀ c ∈ tok.data, isPySpace c = false := by
  intro l
  induction l with
  | nil =>
    intro cur hcur tok htok
    cases cur with
    | nil => simp [pySplitAux] at htok
    | cons d ds =>
      simp only [pySplitAux, List.mem_singleton] at htok
      subst htok
      intro c hc
      have hc2 : c ∈ (d :: ds).reverse := hc
      rw [List.mem_reverse] at hc2
      exact hcur c hc2
  | cons a rest ih =>
    intro cur hcur tok htok
    cases hsp : isPySpace a with
    | true =>
      cases cur with
      | nil =>
        simp only [pySplitAux, hsp, if_true] at htok
        exact ih [] (by simp) tok htok
      | cons d ds =>
        simp only [pySplitAux, hsp, if_true] at htok
        rcases List.mem_cons.mp htok with htok | htok
        · subst htok
          intro c hc
          have hc2 : c ∈ (d :: ds).reverse := hc
          rw [List.mem_reverse] at hc2
          exact hcur c hc2
        · exact ih [] (by simp) tok htok
    | false =>
      simp only [pySplitAux, hsp, Bool.false_eq_true, if_false] at htok
      refine ih (a :: cur) ?_ tok htok
      intro c hc
      rcases List.mem_cons.mp hc with hc | hc
      · rw [hc]; exact hsp
      · exact hcur c hc

/-- C3 counterexample: the submission with the shlex-quoted base token
curl and no confirm field.  The classifier-level tokenization makes it
confirm-tier (curl is in the confirm set), yet the API surface does not
respond with an error: its whitespace pre-check sees a different head
token, falls through to execute_command, solicits the interactive
confirm() prompt on the server (the trace records one prompt), and
spawns the process. -/
theorem api_missing_confirm_still_executes :
    shlexSplit (q "curl" ++ " https://example.com") = Except.ok ["curl", "https://example.com"]
      ∧ "curl" ∈ confirm_commands
      ∧ api_execute_command (q "curl" ++ " https://example.com") none ctx0 ansYes =
          Except.ok (ApiResult.response "success" (messageOf (Outcome.execSuccess "")),
            ⟨[confirmTierPrompt (q "curl" ++ " https://example.com")],
             [["curl", "https://example.com"]]⟩) :=
  ⟨rfl, by decide, rfl⟩

/-- C4: on the API surface an empty (or whitespace-only) command makes
command.split()[0] raise an uncaught IndexError instead of producing a
structured outcome, while execute_command itself does return the
structured no-command message for an empty token sequence. -/
theorem api_empty_command_uncaught :
    api_execute_command "" none ctx0 ansYes = Except.error "IndexError: list index out of range"
      ∧ api_execute_command " " none ctx0 ansYes =
          Except.error "IndexError: list index out of range"
      ∧ executeCommandCore "" [] none ctx0 ansYes =
          Except.ok (Outcome.noCommand, ⟨[], []⟩) :=
  ⟨rfl, rfl, rfl⟩

/-- C5: the API pre-check fires the git filter on git pull origin (whose
token[1] is pull, not the filter's required subcommand push) and demands
confirmation with HTTP 400, while execute_command on the same tokens
skips the filter and executes the command without any confirmation. -/
theorem api_ignores_filter_subcommand :
    gitFilter.subcommand = some "push"
      ∧ api_execute_command "git pull origin" none ctx0 ansYes =
          Except.ok (ApiResult.httpErr 400
            ("Confirmation required: " ++ gitFilter.message), ⟨[], []⟩)
      ∧ executeCommandCore "git pull origin" ["git", "pull", "origin"] none ctx0 ansYes =
          Except.ok (Outcome.execSuccess "", ⟨[], [["git", "pull", "origin"]]⟩) :=
  ⟨rfl, rfl, rfl⟩

/-- C6: the project-directory predicate is not fail-closed: when the ls
subprocess fails (unreadable working directory) it raises
CalledProcessError instead of returning false, and the npm filter
condition propagates that exception; by contrast the ssh filter
condition is fail-closed on an empty argument list as the claim
demands. -/
theorem project_directory_predicate_raises :
    is_within_project_directory ctxLsFail = Except.error "CalledProcessError"
      ∧ npmFilter.condition ["typescript"] ctxLsFail = Except.error "CalledProcessError"
      ∧ sshFilter.condition [] ctxLsFail = Except.ok false
      ∧ gitFilter.condition [] ctxLsFail = Except.ok false :=
  ⟨rfl, rfl, rfl, rfl⟩

/-- C7: a non-empty command whose base name is in neither the deny set
nor the confirm set and matches no filter's base command is allowed and
executed directly: no prompt is solicited (even when the supplied
decision is an explicit false) and the argument vector is spawned, for
every decision, context and oracle. -/
theorem unknown_command_allowed (command base : String) (args : List String)
    (uconf : Option Bool) (ctx : Ctx) (ans : Nat → Bool) :
    base ∉ nope_commands → base ∉ confirm_commands →
    (∀ f ∈ secondary_filters, f.command ≠ base) →
    executeCommandCore command (base :: args) uconf ctx ans =
      Except.ok (execOutcome ctx base (base :: args), ⟨[], [base :: args]⟩) := by
  intro h1 h2 h3
  simp only [executeCommandCore, if_neg h1, if_neg h2]
  unfold afterConfirm
  rw [filterLoop_no_match command base args ctx ans secondary_filters uconf [] h3]

/-- Witness for C7 at echo hello with an explicit false decision: still
executed, no prompt. -/
theorem unknown_command_allowed_witness :
    executeCommandCore "echo hello" ["echo", "hello"] (some false) ctx0 ansYes =
      Except.ok (Outcome.execSuccess "", ⟨[], [["echo", "hello"]]⟩) :=
  unknown_command_allowed "echo hello" "echo" ["hello"] (some false) ctx0 ansYes
    (by decide) (by decide) (by decide)

/-- C8 counterexample: docker run nginx is in the confirm set and also
satisfies the docker filter, but the single confirm() solicitation
presents only the generic confirm-tier text, which does not contain the
docker filter's rationale; the rationales are not collected and combined
before the prompt. -/
theorem confirm_prompt_lacks_filter_rationale :
    "docker" ∈ confirm_commands
      ∧ dockerFilter.condition ["run", "nginx"] ctx0 = Except.ok true
      ∧ executeCommandCore "docker run nginx" ["docker", "run", "nginx"] none ctx0 ansYes =
          Except.ok (Outcome.execSuccess "",
            ⟨[confirmTierPrompt "docker run nginx"], [["docker", "run", "nginx"]]⟩)
      ∧ containsSubstr (confirmTierPrompt "docker run nginx") dockerFilter.message = false :=
  ⟨by decide, rfl, rfl, by decide⟩

/-- C8 amended: at most one confirmation solicitation occurs per
submission (a first approval covers every later requirement), though the
message presented is the one of the first requirement reached, not a
combined rationale. -/
theorem at_most_one_prompt (command : String) (parts : List String) (uconf : Option Bool)
    (ctx : Ctx) (ans : Nat → Bool) (o : Outcome) (tr : Trace) :
    executeCommandCore command parts uconf ctx ans = Except.ok (o, tr) →
    tr.prompts.length ≤ 1 := by
  intro h
  cases parts with
  | nil =>
    have : tr = ⟨[], []⟩ := by simp only [executeCommandCore] at h; cases h; rfl
    rw [this]
    simp
  | cons base args =>
    simp only [executeCommandCore] at h
    by_cases hnope : base ∈ nope_commands
    · rw [if_pos hnope] at h
      have : tr = ⟨[], []⟩ := by cases h; rfl
      rw [this]; simp
    · rw [if_neg hnope] at h
      by_cases hconf : base ∈ confirm_commands
      · rw [if_pos hconf] at h
        cases uconf with
        | none =>
          cases hans : ans 0 with
          | true =>
            rw [hans] at h
            simp only [if_true] at h
            have := afterConfirm_ok_prompts_some command base args ctx ans true
              [confirmTierPrompt command] o tr h
            rw [this]; simp
          | false =>
            rw [hans] at h
            simp only [Bool.false_eq_true, if_false] at h
            have : tr = ⟨[confirmTierPrompt command], []⟩ := by cases h; rfl
            rw [this]; simp
        | some b =>
          cases b with
          | true =>
            simp only [if_true] at h
            have := afterConfirm_ok_prompts_some command base args ctx ans true [] o tr h
            rw [this]; simp
          | false =>
            simp only [Bool.false_eq_true, if_false] at h
            have : tr = ⟨[], []⟩ := by cases h; rfl
            rw [this]; simp
      · rw [if_neg hconf] at h
        cases uconf with
        | none =>
          have := afterConfirm_ok_prompts_none command base args ctx ans [] o tr h
          simpa using this
        | some b =>
          have := afterConfirm_ok_prompts_some command base args ctx ans b [] o tr h
          rw [this]; simp

/-- Witness for C8 amended at the docker run nginx submission: exactly
one prompt was solicited. -/
theorem at_most_one_prompt_witness :
    executeCommandCore "docker run nginx" ["docker", "run", "nginx"] none ctx0 ansYes =
        Except.ok (Outcome.execSuccess "",
          ⟨[confirmTierPrompt "docker run nginx"], [["docker", "run", "nginx"]]⟩)
      ∧ (⟨[confirmTierPrompt "docker run nginx"], [["docker", "run", "nginx"]]⟩ : Trace).prompts.length ≤ 1 :=
  ⟨rfl, at_most_one_prompt "docker run nginx" ["docker", "run", "nginx"] none ctx0 ansYes
    (Outcome.execSuccess "")
    ⟨[confirmTierPrompt "docker run nginx"], [["docker", "run", "nginx"]]⟩ rfl⟩

/-- C9 counterexample: the input consisting of ln -s wrapped in single
quotes tokenizes under shlex with first token exactly the confirm-set
entry ln -s, and that entry then does trigger a confirmation
requirement: with a supplied false decision the submission is cancelled
at the confirm tier. -/
theorem quoted_ln_s_triggers_confirmation :
    shlexSplit (q "ln -s") = Except.ok ["ln -s"]
      ∧ "ln -s" ∈ confirm_commands
      ∧ execute_command (q "ln -s") (some false) ctx0 ansYes =
          Except.ok (Outcome.cancelled, ⟨[], []⟩) :=
  ⟨rfl, by decide, rfl⟩

/-- C9 amended: under the whitespace tokenization of the API pre-checks
no token of any command string ever equals the compound entry ln -s
(tokens contain no whitespace), so there the entry is indeed
unmatchable; only shlex quoting can produce it. -/
theorem ln_s_never_a_whitespace_token (s tok : String) :
    tok ∈ pySplit s → tok ≠ "ln -s" := by
  intro htok heq
  have hall := pySplitAux_no_space s.data [] (by simp) tok htok
  subst heq
  have hsp : (Char.ofNat 32) ∈ ("ln -s" : String).data := by decide
  exact absurd (hall (Char.ofNat 32) hsp) (by decide)

/-- Witness for C9 amended: the unquoted command ln -s home splits into
tokens whose first is ln, which differs from the compound entry. -/
theorem ln_s_never_a_whitespace_token_witness :
    ("ln" ∈ pySplit "ln -s home") ∧ "ln" ≠ "ln -s" :=
  ⟨by decide, ln_s_never_a_whitespace_token "ln -s home" "ln" (by decide)⟩

/-- C10: when an explicit boolean decision is supplied, execute_command
never invokes the interactive confirm() prompt: its result does not
depend on the prompt oracle at all and the solicited-prompt trace is
empty, for every command string and context. -/
theorem explicit_decision_never_prompts (command : String) (b : Bool) (ctx : Ctx)
    (ans₁ ans₂ : Nat → Bool) :
    execute_command command (some b) ctx ans₁ = execute_command command (some b) ctx ans₂
      ∧ promptsOf (execute_command command (some b) ctx ans₁) = [] := by
  unfold execute_command
  cases hsp : shlexSplit command with
  | error e => exact ⟨rfl, rfl⟩
  | ok parts => exact core_some_spec command parts b ctx ans₁ ans₂

/-- C3 amended: when the whitespace tokenization used by the API
pre-checks and the shlex tokenization used by the classifier agree on
the token list, a submission that requires a confirmation decision
(confirm-tier membership, or a filter for the base command whose
condition holds) and carries no confirm value is answered with an HTTP
400 error demanding the confirm field, with no prompt solicited and no
process spawned. -/
theorem api_confirm_required_when_tokens_agree
    (command b0 : String) (args : List String) (ctx : Ctx) (ans : Nat → Bool) :
    pySplit command = b0 :: args →
    shlexSplit command = Except.ok (b0 :: args) →
    b0 ∉ nope_commands →
    (b0 ∈ confirm_commands
      ∨ ∃ f ∈ secondary_filters, f.command = b0 ∧ f.condition args ctx = Except.ok true) →
    ∃ detail, api_execute_command command none ctx ans =
      Except.ok (ApiResult.httpErr 400 detail, ⟨[], []⟩) := by
  intro hpy hsh hnope hreq
  have hapi : api_execute_command command none ctx ans =
      apiAfterSplit command b0 args none ctx ans := by
    unfold api_execute_command; rw [hpy]
  rw [hapi]
  rcases hreq with hconf | ⟨f, hf, hfb, hcond⟩
  · refine ⟨confirmRequiredDetail, ?_⟩
    unfold apiAfterSplit
    rw [if_neg hnope, if_pos hconf]
  · have hf5 : f = pipFilter ∨ f = npmFilter ∨ f = dockerFilter ∨ f = sshFilter ∨ f = gitFilter := by
      simpa [secondary_filters] using hf
    subst hfb
    rcases hf5 with rfl | rfl | rfl | rfl | rfl
    · refine ⟨confirmRequiredDetail, ?_⟩
      unfold apiAfterSplit
      rw [if_neg hnope, if_pos (show pipFilter.command ∈ confirm_commands from by decide)]
    · refine ⟨confirmRequiredDetail, ?_⟩
      unfold apiAfterSplit
      rw [if_neg hnope, if_pos (show npmFilter.command ∈ confirm_commands from by decide)]
    · refine ⟨confirmRequiredDetail, ?_⟩
      unfold apiAfterSplit
      rw [if_neg hnope, if_pos (show dockerFilter.command ∈ confirm_commands from by decide)]
    · refine ⟨confirmRequiredDetail, ?_⟩
      unfold apiAfterSplit
      rw [if_neg hnope, if_pos (show sshFilter.command ∈ confirm_commands from by decide)]
    · refine ⟨"Confirmation required: " ++ gitFilter.message, ?_⟩
      unfold apiAfterSplit
      rw [if_neg hnope, if_neg (show ¬ gitFilter.command ∈ confirm_commands from by decide)]
      have hfil : secondary_filters.filter (fun g => g.command == gitFilter.command) = [gitFilter] := rfl
      rw [hfil]
      simp only [apiFilterLoop]
      rw [hcond]

/-- Witness for C3 amended at docker run nginx with no confirm field:
the API answers 400 without prompting or spawning. -/
theorem api_confirm_required_witness :
    ∃ detail, api_execute_command "docker run nginx" none ctx0 ansYes =
      Except.ok (ApiResult.httpErr 400 detail, ⟨[], []⟩) :=
  api_confirm_required_when_tokens_agree "docker run nginx" "docker" ["run", "nginx"]
    ctx0 ansYes rfl rfl (by decide) (Or.inl (by decide))
